import Mathlib

/-!
Shallow embedding of the page segmentation and tiling engine of
`cbz2xtc.py` (function `optimize_image` and the batch driver
`extract_cbz_to_png`), together with proofs about the claims of the
specification.

Python numeric conventions used throughout the embedding:
* Python `//` on numbers is floor division; we model it with `Int.floor`
  (written `⌊·⌋`) over `ℚ`.
* Python `int(x)` truncates toward zero; we model it with `pyint`.
* Python floats are modelled as exact rationals (`ℚ`).  All quantities the
  script floors or crops with are integral-valued, so the rational model
  agrees with the float computation on the magnitudes that occur.
* A raised-and-caught Python exception is modelled with an explicit error
  value (`PyErr`); partial effects performed before the raise are kept,
  matching the fact that files already written stay on disk.
-/

set_option maxRecDepth 100000

namespace Cbz2Xtc

/-- Python `int(x)`: truncation toward zero. -/
def pyint (q : ℚ) : ℤ := if 0 ≤ q then ⌊q⌋ else ⌈q⌉

/-- Exceptions that the modelled code paths of `optimize_image` can raise.
`nameError` in particular models the reference to the undefined global
`SPECIAL_SPLITS_PAGES` on line 301 (the defined list is called
`SPECIAL_SPLIT_PAGES`) and the read of `MARGIN_VALUE` when `--margin`
was never supplied, `valueError` models PIL's crop-box validation,
`divZero` models Python's `ZeroDivisionError`, `indexError` models
out-of-range list subscripts, and `recursionDepth` models the
interpreter's recursion limit (our fuel). -/
inductive PyErr where
  | nameError
  | valueError
  | divZero
  | indexError
  | decodeFailure
  | recursionDepth
  deriving DecidableEq, Repr

deriving instance DecidableEq for Except

/-- A crop rectangle `(left, upper, right, lower)` in the coordinates of the
page buffer being segmented, as passed to `img.crop`. -/
structure Rect where
  left : ℚ
  top : ℚ
  right : ℚ
  bottom : ℚ
  deriving DecidableEq, Repr

/-- The rectangle of the segment tile at row `v` and column `h`:
`img.crop((shiftover_to_overlap*h, shiftdown_to_overlap*v,
width-(shiftover_to_overlap*(number_of_h_segments-h-1)),
height-(shiftdown_to_overlap*(number_of_v_segments-v-1))))`
(line 362 of `cbz2xtc.py`). -/
def tileRect (W H : ℤ) (sh sv : ℚ) (nv nh : ℤ) (v h : ℕ) : Rect :=
  ⟨sh * h, sv * v, (W : ℚ) - sh * ((nh : ℚ) - 1 - h), (H : ℚ) - sv * ((nv : ℚ) - 1 - v)⟩

/-- All `nv × nh` segment rectangles, in emission order (row major, `v` outer
loop, `h` inner loop, lines 359-390). -/
def segRects (W H : ℤ) (sh sv : ℚ) (nv nh : ℤ) : List Rect :=
  (List.range nv.toNat).flatMap fun v =>
    (List.range nh.toNat).map fun h => tileRect W H sh sv nv nh v h

/-- Membership of a point in a (closed) crop rectangle. -/
def inRect (r : Rect) (x y : ℚ) : Prop :=
  r.left ≤ x ∧ x ≤ r.right ∧ r.top ≤ y ∧ y ≤ r.bottom

instance (r : Rect) (x y : ℚ) : Decidable (inRect r x y) := by
  unfold inRect; infer_instance

/-- The union of the rectangles `ts` is exactly the page `[0,W] × [0,H]`:
every point of the page is in some rectangle and every rectangle point is in
the page. -/
def coversPage (ts : List Rect) (W H : ℤ) : Prop :=
  ∀ x y : ℚ, (0 ≤ x ∧ x ≤ W ∧ 0 ≤ y ∧ y ≤ H) ↔ ∃ r ∈ ts, inRect r x y

/-- `total_calculated_width = MAX_SPLIT_WIDTH * number_of_h_segments -
int((number_of_h_segments - 1) * (MAX_SPLIT_WIDTH * 0.01 * h_overlap_percent))`
(line 314). -/
def totalCalculatedWidth (wmax nh : ℤ) (oh : ℚ) : ℤ :=
  wmax * nh - pyint ((nh - 1 : ℤ) * ((wmax : ℚ) * (1 / 100) * oh))

/-- `established_scale = total_calculated_width * 1.0 / width` (line 316). -/
def establishedScale (tcw W : ℤ) : ℚ := (tcw : ℚ) / (W : ℚ)

/-- `overlapping_width = MAX_SPLIT_WIDTH / established_scale // 1` (line 319). -/
def overlappingWidth (wmax : ℤ) (scale : ℚ) : ℤ := ⌊(wmax : ℚ) / scale⌋

/-- `shiftover_to_overlap`: `0`, unless `number_of_h_segments > 1`, in which
case `overlapping_width - (overlapping_width * number_of_h_segments - width)
// (number_of_h_segments - 1)` (lines 320-322). -/
def shiftoverToOverlap (ow nh W : ℤ) : ℤ :=
  if 1 < nh then ow - ⌊((ow * nh - W : ℤ) : ℚ) / ((nh - 1 : ℤ) : ℚ)⌋ else 0

/-- `overlapping_height = 480 / established_scale // 1` (line 336). -/
def overlappingHeight (scale : ℚ) : ℤ := ⌊(480 : ℚ) / scale⌋

/-- The vertical stride recomputed inside the search loop for a candidate
count `nv`: `0`, and when `number_of_v_segments > 1`,
`overlapping_height - (overlapping_height * number_of_v_segments - height)
// (number_of_v_segments - 1)` (lines 342-344). -/
def vStrideAt (th H nv : ℤ) : ℚ :=
  if 1 < nv then (th : ℚ) - ⌊((th * nv - H : ℤ) : ℚ) / ((nv - 1 : ℤ) : ℚ)⌋ else 0

/-- One unfolding layer of the `while` loop of lines 338-344.  The fuel is
exact: the loop runs at most `26 - start` times because `number_of_v_segments`
increases by one per iteration and the loop requires it to stay below 26.
When `overlapping_height` is zero the ratio test raises `ZeroDivisionError`
(the `and` short-circuits, so only when the count test already passed). -/
def vsearchGo (th H : ℤ) (ovmin : ℚ) : ℕ → ℤ → ℚ → Except PyErr (ℤ × ℚ)
  | 0, nv, sd => .ok (nv, sd)
  | fuel + 1, nv, sd =>
    if nv < 26 then
      if th = 0 then .error .divZero
      else if 1 - ovmin / 100 < sd / (th : ℚ) then
        vsearchGo th H ovmin fuel (nv + 1) (vStrideAt th H (nv + 1))
      else .ok (nv, sd)
    else .ok (nv, sd)

/-- The vertical overlap-resolution search: starting from
`number_of_v_segments = start` and `shiftdown_to_overlap = 99999`, iterate
while `number_of_v_segments < 26` and the achieved stride ratio exceeds
`1 - 0.01 * minimum_v_overlap` (lines 337-344). -/
def vsearch (th H : ℤ) (ovmin : ℚ) (start : ℤ) : Except PyErr (ℤ × ℚ) :=
  vsearchGo th H ovmin (26 - start).toNat start 99999

/-- The parsed value of the global `MARGIN_VALUE` string.  `v0` is the string
`"0"`, `vauto` is `"auto"` (any case), `vlist` is a comma-separated list of
percentages (the parser pads missing entries with `0`), and `vnum` is a single
percentage. -/
inductive MarginVal where
  | v0
  | vauto
  | vlist (l t r b : ℚ)
  | vnum (p : ℚ)
  deriving DecidableEq, Repr

/-- The crop performed by the margin block, if any. `autoBbox` carries the
`ImageOps.autocontrast` cutoff pair `(59, 40)` applied to the inverted image
before `getbbox` (lines 244-247). -/
inductive CropAction where
  | noCrop
  | autoBbox (darkCutoff lightCutoff : ℤ)
  | perSide (l t r b : ℚ)
  | uniform (p : ℚ)
  deriving DecidableEq, Repr

/-- The margin-mode dispatch of lines 239-259.  The block runs when the
`--margin` flag is set or a half-selector suffix is active; `MARGIN_VALUE` is
only ever assigned by the argument parser when `--margin` is passed, so
reading it with the flag absent raises `NameError`.  The `"0"` value is
checked first and skips all cropping; every other defined value takes the
auto-bbox branch whenever the suffix is non-empty. -/
def marginStep (margin : Bool) (marginValue : Option MarginVal) (suffix : String) :
    Except PyErr CropAction :=
  if margin = true ∨ suffix ≠ "" then
    match marginValue with
    | none => .error .nameError
    | some mv =>
      if mv = .v0 then .ok .noCrop
      else if mv = .vauto ∨ suffix ≠ "" then .ok (.autoBbox 59 40)
      else
        match mv with
        | .vlist l t r b => .ok (.perSide l t r b)
        | .vnum p => .ok (.uniform p)
        | _ => .ok .noCrop
  else .ok .noCrop

/-- The global configuration of the script, as resolved by `main`'s argument
parsing, restricted to the fields `optimize_image` reads.  The `SPECIAL_SPLIT_*`
parallel lists are kept as in the source; the mutable `SPECIAL_SPLIT_BOOLEANS`
table is threaded separately as state because page processing mutates it. -/
structure Config where
  isManga : Bool := false
  skipOn : Bool := false
  skipPages : List String := []
  startPage : ℤ := 0
  stopPage : ℤ := 0
  onlyOn : Bool := false
  onlyPages : List String := []
  sampleSet : Bool := false
  samplePages : List String := []
  margin : Bool := false
  marginValue : Option MarginVal := none
  splitSpreads : Bool := false
  splitSpreadsPages : List String := []
  splitAll : Bool := false
  dontSplitPages : List String := []
  thumbnailWidth : ℤ := 0
  includeOverviews : Bool := false
  sidewaysOverviews : Bool := false
  selectOverviews : Bool := false
  selectOvPages : List String := []
  overlap : Bool := false
  setHSegments : ℤ := 0
  setHOverlapPercent : ℚ := 70
  desiredVSegments : ℤ := 0
  minVOverlapPercent : ℚ := 5
  maxSplitWidth : ℤ := 800

/-- The per-page `--special-split` override entries: parallel lists indexed by
the position of the page in `SPECIAL_SPLIT_PAGES` (the argument parser appends
to all of them in lockstep). -/
structure SpecialSplits where
  active : Bool := false
  pages : List ℤ := []
  hsplits : List ℤ := []
  vsplits : List ℤ := []
  hoverlap : List ℚ := []

/-- The mutable global `SPECIAL_SPLIT_BOOLEANS`: one inclusion-mask character
list per override entry (characters `'1'`/`'0'`; an absent mask is the empty
list). -/
abbrev MaskTable := List (List Char)

/-- Position of the page's override entry: `SPECIAL_SPLIT_PAGES.index(page_num)`,
when `SPECIAL_SPLITS and page_num in SPECIAL_SPLIT_PAGES` holds. -/
def overridePos (sp : SpecialSplits) (page : ℤ) : Option ℕ :=
  if sp.active ∧ page ∈ sp.pages then sp.pages.indexOf? page else none

/-- Resolution of `number_of_h_segments` and `h_overlap_percent` (lines
308-313): the global policy, replaced by the page's `SpecialSplit` entry when
one exists.  A missing parallel-list entry is a Python `IndexError`. -/
def resolveH (cfg : Config) (sp : SpecialSplits) (page : ℤ) : Except PyErr (ℤ × ℚ) :=
  match overridePos sp page with
  | none => .ok (cfg.setHSegments, cfg.setHOverlapPercent)
  | some pos =>
    match sp.hsplits.get? pos, sp.hoverlap.get? pos with
    | some nh, some oh => .ok (nh, oh)
    | _, _ => .error .indexError

/-- Resolution of the starting `number_of_v_segments` and `minimum_v_overlap`
(lines 324-329): globally `DESIRED_V_OVERLAP_SEGMENTS - 1` and
`MINIMUM_V_OVERLAP_PERCENT`; a `SpecialSplit` entry replaces them with its
requested vertical count minus one and hard-codes the minimum overlap
to `-100`. -/
def resolveVStart (cfg : Config) (sp : SpecialSplits) (page : ℤ) : Except PyErr (ℤ × ℚ) :=
  match overridePos sp page with
  | none => .ok (cfg.desiredVSegments - 1, cfg.minVOverlapPercent)
  | some pos =>
    match sp.vsplits.get? pos with
    | some nv => .ok (nv - 1, -100)
    | none => .error .indexError

/-- The arithmetic result of the overlap-aware segmentation planner. -/
structure SegPlan where
  nh : ℤ
  oh : ℚ
  tcw : ℤ
  scale : ℚ
  ow : ℤ
  sh : ℤ
  th : ℤ
  nv : ℤ
  sv : ℚ
  deriving DecidableEq, Repr

/-- The overlap-aware segmentation planner (lines 308-344): resolve the
horizontal policy, derive the scale from the total calculated width, the
segment width and horizontal stride, then run the vertical overlap-resolution
search.  `width = 0` raises `ZeroDivisionError` at the `established_scale`
division (float), and `total_calculated_width = 0` raises it at
`MAX_SPLIT_WIDTH / established_scale`. -/
def planSegmentation (cfg : Config) (sp : SpecialSplits) (page W H : ℤ) :
    Except PyErr SegPlan := do
  let (nh, oh) ← resolveH cfg sp page
  let tcw := totalCalculatedWidth cfg.maxSplitWidth nh oh
  if W = 0 then .error .divZero
  else
    let scale := establishedScale tcw W
    if scale = 0 then .error .divZero
    else
      let ow := overlappingWidth cfg.maxSplitWidth scale
      let sh := shiftoverToOverlap ow nh W
      let (nvStart, ovmin) ← resolveVStart cfg sp page
      let th := overlappingHeight scale
      let (nv, sv) ← vsearch th H ovmin nvStart
      .ok ⟨nh, oh, tcw, scale, ow, sh, th, nv, sv⟩

/-- The role of an emitted output file, read off from its name suffix:
`_0_overview`, `_0_spread`, `_2_a` / `_2_b` (legacy two-piece mode), or
`_3_<row>[_<col>]` (overlap segment). -/
inductive Role where
  | overview
  | spread
  | halfTop
  | halfBottom
  | segment
  deriving DecidableEq, Repr

/-- One output file produced for a page: the spread-recursion suffix of the
processed (sub-)page, the role, the row/column letter labels (segments only)
and the crop rectangle in the coordinates of the buffer the role crops
(the margin-cropped buffer for segments and halves and the spread, the
pre-margin buffer for overviews). -/
structure Emit where
  suffix : String
  role : Role
  vLabel : Option Char := none
  hLabel : Option Char := none
  rect : Rect
  deriving DecidableEq, Repr

/-- `letter_keys` (line 330). -/
def letterKeys : List Char :=
  ['a', 'b', 'c', 'd', 'e', 'f', 'g', 'h', 'i', 'j', 'k', 'l', 'm',
   'n', 'o', 'p', 'q', 'r', 's', 't', 'u', 'v', 'w', 'x', 'y', 'z']

/-- `letter_keys_hsplit`: the same alphabet, reversed in place when
`IS_MANGA` (lines 331-333). -/
def hsplitKeys (manga : Bool) : List Char :=
  if manga then letterKeys.reverse else letterKeys

/-- The `(v, h)` iteration sequence of the nested emission `while` loops
(lines 359-390): `v` outer from `0` to `number_of_v_segments - 1`, `h` inner
from `0` to `number_of_h_segments - 1`. -/
def segPairs (nv nh : ℤ) : List (ℕ × ℕ) :=
  (List.range nv.toNat).flatMap fun v =>
    (List.range nh.toNat).map fun h => (v, h)

/-- State threaded through the emission loop: files emitted so far, the
mutable `SPECIAL_SPLIT_BOOLEANS` table, and the pending exception once one
has been raised (which aborts the rest of the loop but keeps the files
already written). -/
structure EmitState where
  emits : List Emit
  table : MaskTable
  err : Option PyErr
  deriving Repr

/-- The save-and-consume tail of one `(v, h)` emission iteration (lines
368-388): save the rotated segment unless the current head of the page's
inclusion-mask list is `'0'` (saving a zero-area segment divides by zero in
`save_with_padding`'s `min(480/w, 800/h)`), then pop the consumed mask
element — mutating the globally shared `SPECIAL_SPLIT_BOOLEANS` entry that
`use_segment_list` aliases. -/
def emitSegRender (suffix : String) (vl : Char) (hl : Option Char) (r : Rect)
    (maskIdx : Option ℕ) (st : EmitState) : EmitState :=
  let lst : List Char :=
    match maskIdx with
    | none => []
    | some i => (st.table.get? i).getD []
  let rendered : Bool := lst.isEmpty || lst.head? = some '1'
  let st1 : EmitState :=
    if rendered then
      if r.right = r.left ∨ r.bottom = r.top then { st with err := some .divZero }
      else { st with emits := st.emits ++ [⟨suffix, .segment, some vl, hl, r⟩] }
    else st
  match st1.err with
  | some _ => st1
  | none =>
    match maskIdx, lst with
    | some i, _ :: rest => { st1 with table := st1.table.set i rest }
    | _, _ => st1

/-- The body of one `(v, h)` iteration of the emission loop (lines 362-389):
crop the segment (PIL validates the box and raises `ValueError` when
`right < left` or `lower < upper`), build the output name from `letter_keys`
and — when there is more than one column — `letter_keys_hsplit`
(`IndexError` past `'z'`), then save and consume the mask via
`emitSegRender`. -/
def emitSegStep (W H : ℤ) (sh sv : ℚ) (nv nh : ℤ) (manga : Bool) (suffix : String)
    (maskIdx : Option ℕ) (st : EmitState) (p : ℕ × ℕ) : EmitState :=
  match st.err with
  | some _ => st
  | none =>
    let r := tileRect W H sh sv nv nh p.1 p.2
    if r.right < r.left ∨ r.bottom < r.top then { st with err := some .valueError }
    else
      match letterKeys.get? p.1 with
      | none => { st with err := some .indexError }
      | some vl =>
        if 1 < nh then
          match (hsplitKeys manga).get? p.2 with
          | none => { st with err := some .indexError }
          | some hl => emitSegRender suffix vl (some hl) r maskIdx st
        else emitSegRender suffix vl none r maskIdx st

/-- The nested emission loops of lines 359-390, as a fold of `emitSegStep`
over the row-major `(v, h)` sequence. -/
def emitSegLoop (W H : ℤ) (sh sv : ℚ) (nv nh : ℤ) (manga : Bool) (suffix : String)
    (maskIdx : Option ℕ) (table : MaskTable) : EmitState :=
  (segPairs nv nh).foldl (emitSegStep W H sh sv nv nh manga suffix maskIdx)
    ⟨[], table, none⟩

/-- A decoded source page: whether `Image.open` succeeds on its bytes, its
dimensions, and an oracle giving the dimensions that the content-dependent
auto-bbox margin crop (invert, autocontrast, `getbbox`, crop) produces.  The
oracle abstracts the pixel data, which the geometry claims never inspect. -/
structure PageInput where
  decodable : Bool := true
  w : ℤ
  h : ℤ
  bbox : ℤ → ℤ → ℤ × ℤ := fun a b => (a, b)

/-- Dimensions after a margin `CropAction` (lines 239-259).  Percentage crops
use `int(pct/100.0*width)`-style truncation per side; PIL raises `ValueError`
if the box is inverted. -/
def applyCrop (inp : PageInput) (action : CropAction) (W H : ℤ) :
    Except PyErr (ℤ × ℤ) :=
  match action with
  | .noCrop => .ok (W, H)
  | .autoBbox _ _ => .ok (inp.bbox W H)
  | .perSide l t r b =>
    let li := pyint (l / 100 * W)
    let ti := pyint (t / 100 * H)
    let ri := W - pyint (r / 100 * W)
    let bi := H - pyint (b / 100 * H)
    if ri < li ∨ bi < ti then .error .valueError else .ok (ri - li, bi - ti)
  | .uniform p =>
    let li := pyint (p / 100 * W)
    let ti := pyint (p / 100 * H)
    let ri := W - pyint (p / 100 * W)
    let bi := H - pyint (p / 100 * H)
    if ri < li ∨ bi < ti then .error .valueError else .ok (ri - li, bi - ti)

/-- The split decision of lines 265-278, applied in source order:
`should_this_split = width < height`, overridden to "halve first" (top level)
or "must split" (inside a half) for pages listed in `SPLIT_SPREADS_PAGES`,
overridden to `True` by `SPLIT_ALL`, and finally forced to `False` at top
level for pages listed in `DONT_SPLIT_PAGES`. -/
def shouldSplitPage (cfg : Config) (page : ℤ) (suffix : String) (W H : ℤ) : Bool :=
  if suffix = "" ∧ toString page ∈ cfg.dontSplitPages then false
  else if cfg.splitAll then true
  else if toString page ∈ cfg.splitSpreadsPages then decide (suffix ≠ "")
  else decide (W < H)

/-- Result of one `optimize_image` call: the files it emitted (including those
of recursive spread sub-pipelines), the final `SPECIAL_SPLIT_BOOLEANS` table,
and whether the call's own body raised (and had its exception swallowed by
the `try`/`except` of lines 143/494, printing a warning and returning 0).
Failures inside a recursive call are caught by that call's own handler and do
not mark the parent as failed, matching the source. -/
structure RunResult where
  emits : List Emit
  table : MaskTable
  failed : Bool

/-- The overlap-segment emission of lines 352-390: `use_segment_list` is
bound to the page's entry of the global `SPECIAL_SPLIT_BOOLEANS` table when a
`SpecialSplit` override exists (an alias, not a copy — `IndexError` if the
parallel table is shorter than the page's position), then the nested
emission loops run.  `ovs` carries the overview files already written by
lines 289-299. -/
def runSegEmission (cfg : Config) (sp : SpecialSplits) (page W H : ℤ)
    (plan : SegPlan) (suffix : String) (ovs : List Emit) (table : MaskTable) :
    RunResult :=
  match overridePos sp page with
  | some pos =>
    match table.get? pos with
    | none => ⟨ovs, table, true⟩
    | some _ =>
      let es := emitSegLoop W H plan.sh plan.sv plan.nv plan.nh
        cfg.isManga suffix (some pos) table
      ⟨ovs ++ es.emits, es.table, es.err.isSome⟩
  | none =>
    let es := emitSegLoop W H plan.sh plan.sv plan.nv plan.nh
      cfg.isManga suffix none table
    ⟨ovs ++ es.emits, es.table, es.err.isSome⟩

/-- The splitting arm of `optimize_image` (lines 280-472): the unconditional
`thumbnail_scale = 1.0*THUMBNAIL_WIDTH/width` division (line 281), the
optional overview file (lines 289-299, saved from the pre-margin buffer of
size `W1 × H1`, rotated unless sideways overviews are selected), the policy
guard of line 301, the overlap-aware segmentation, and the legacy two-piece
mode.

The guard models `if OVERLAP or DESIRED_V_OVERLAP_SEGMENTS or
SET_H_OVERLAP_SEGMENTS or page_num in SPECIAL_SPLITS_PAGES:` — the last
operand names a global that is never assigned anywhere in the script (the
defined list is `SPECIAL_SPLIT_PAGES`), so whenever the first three operands
are all falsy the guard raises `NameError` instead of selecting the legacy
two-piece branch, which is therefore unreachable. -/
def runSplitBranch (cfg : Config) (sp : SpecialSplits) (page : ℤ)
    (suffix : String) (W1 H1 W2 H2 : ℤ) (table : MaskTable) : RunResult :=
  if W2 = 0 then ⟨[], table, true⟩ else
  let overviewEmits : Except PyErr (List Emit) :=
    if (cfg.includeOverviews ∨ cfg.sidewaysOverviews ∨ cfg.selectOverviews)
        ∧ ¬(cfg.selectOverviews = true ∧ toString page ∉ cfg.selectOvPages) then
      -- save_with_padding divides by the image dimensions.
      if W1 = 0 ∨ H1 = 0 then .error .divZero
      else .ok [⟨suffix, .overview, none, none, ⟨0, 0, W1, H1⟩⟩]
    else .ok []
  match overviewEmits with
  | .error _ => ⟨[], table, true⟩
  | .ok ovs =>
    let overlapGuard : Except PyErr Bool :=
      if cfg.overlap = true ∨ cfg.desiredVSegments ≠ 0 ∨ cfg.setHSegments ≠ 0
      then .ok true
      else .error .nameError
    match overlapGuard with
    | .error _ => ⟨ovs, table, true⟩
    | .ok true =>
      match planSegmentation cfg sp page W2 H2 with
      | .error _ => ⟨ovs, table, true⟩
      | .ok plan => runSegEmission cfg sp page W2 H2 plan suffix ovs table
    | .ok false =>
      -- Legacy two-piece mode (lines 437-472); dead code, see above.
      let hh : ℤ := ⌊(H2 : ℚ) / 2⌋
      if hh = 0 then ⟨ovs, table, true⟩
      else
        ⟨ovs ++ [⟨suffix, .halfTop, none, none, ⟨0, 0, W2, hh⟩⟩,
                 ⟨suffix, .halfBottom, none, none, ⟨0, hh, W2, H2⟩⟩],
         table, false⟩

/-- `optimize_image(img_data, output_path_base, page_num, suffix)` (lines
132-496).  The fuel models Python's recursion limit (`RecursionError`, which
the spread recursion of line 480-482 can genuinely hit); every other step is
translated directly from the source.  Pixel-level operations (contrast
boosting, rotation, resampling, dithering, thumbnail overlays) change no
emission decision or crop geometry and are not tracked beyond the
`ZeroDivisionError` that `save_with_padding` raises on a zero-area image.  -/
def optimizeImage (cfg : Config) (sp : SpecialSplits) (inp : PageInput) :
    ℕ → ℤ → String → MaskTable → RunResult
  | 0, _, _, table => ⟨[], table, true⟩
  | fuel + 1, page, suffix, table =>
    -- Image.open(BytesIO(img_data)): a corrupt buffer raises here (line 145).
    if inp.decodable = false then ⟨[], table, true⟩ else
    -- Spread half-selection crop (lines 147-164): only the exact suffixes
    -- "_1" and "_2" crop; manga flips the physical side but not the size.
    let W1 : ℤ :=
      if suffix = "_1" ∨ suffix = "_2" then inp.w - pyint ((50 : ℚ) / 100 * inp.w) else inp.w
    let H1 : ℤ := inp.h
    -- Page-selection early returns (lines 166-181): skipped pages, pages
    -- before --start or after --stop, pages outside --only.
    if cfg.skipOn = true ∧ toString page ∈ cfg.skipPages then ⟨[], table, false⟩ else
    if cfg.startPage ≠ 0 ∧ page < cfg.startPage then ⟨[], table, false⟩ else
    if cfg.stopPage ≠ 0 ∧ cfg.stopPage < page then ⟨[], table, false⟩ else
    if cfg.onlyOn = true ∧ toString page ∉ cfg.onlyPages then ⟨[], table, false⟩ else
    -- Sample-set mode (lines 183-227) writes contrast/margin preview sheets
    -- and returns 0 without standard tile output; the previews are outside
    -- the tile model.
    if cfg.sampleSet = true then ⟨[], table, false⟩ else
    -- contrast_boost_image and grayscale conversion (lines 229-233) do not
    -- change dimensions.  Margin crop (lines 239-259):
    match marginStep cfg.margin cfg.marginValue suffix with
    | .error _ => ⟨[], table, true⟩
    | .ok action =>
      match applyCrop inp action W1 H1 with
      | .error _ => ⟨[], table, true⟩
      | .ok (W2, H2) =>
        -- Split decision (lines 265-278).
        if shouldSplitPage cfg page suffix W2 H2 then
          runSplitBranch cfg sp page suffix W1 H1 W2 H2 table
        else if H2 ≤ W2 ∨ toString page ∈ cfg.splitSpreadsPages then
          -- Spread branch (lines 474-483).
          if W2 = 0 ∨ H2 = 0 then ⟨[], table, true⟩
          else
            let spreadTile : Emit := ⟨suffix, .spread, none, none, ⟨0, 0, W2, H2⟩⟩
            if cfg.splitSpreads then
              match cfg.splitSpreadsPages.head? with
              | none => ⟨[spreadTile], table, true⟩
              | some p0 =>
                if p0 = "all" ∨ toString page ∈ cfg.splitSpreadsPages then
                  let r1 := optimizeImage cfg sp inp fuel page (suffix ++ "_1") table
                  let r2 := optimizeImage cfg sp inp fuel page (suffix ++ "_2") r1.table
                  ⟨spreadTile :: (r1.emits ++ r2.emits), r2.table, false⟩
                else ⟨[spreadTile], table, false⟩
            else ⟨[spreadTile], table, false⟩
        else
          -- Don't-split page, rendered like an overview (lines 484-490).
          if W1 = 0 ∨ H1 = 0 then ⟨[], table, true⟩
          else ⟨[⟨suffix, .overview, none, none, ⟨0, 0, W1, H1⟩⟩], table, false⟩

/-- The per-page loop of `extract_cbz_to_png` (lines 584-590): pages are
numbered from 1 and each is passed to `optimize_image`, whose internal
`try`/`except` makes it total — a failing page never aborts its siblings. -/
def extractBatch (cfg : Config) (sp : SpecialSplits) (fuel : ℕ) :
    List PageInput → ℤ → MaskTable → List RunResult × MaskTable
  | [], _, table => ([], table)
  | inp :: rest, page, table =>
    let r := optimizeImage cfg sp inp fuel page "" table
    let (rs, finalTable) := extractBatch cfg sp fuel rest (page + 1) r.table
    (r :: rs, finalTable)

/-! Concrete configurations used to evaluate the model at specific inputs. -/

/-- A decodable page buffer of the given dimensions whose auto-bbox crop is
the identity (its content has no background border). -/
def pgIn (w h : ℤ) : PageInput := { w := w, h := h }

/-- The configuration produced by passing only `--overlap`: the defaults
`DESIRED_V_OVERLAP_SEGMENTS = 3` and `SET_H_OVERLAP_SEGMENTS = 1` are
installed, with `SET_H_OVERLAP_PERCENT = 70`, `MINIMUM_V_OVERLAP_PERCENT = 5`
and `MAX_SPLIT_WIDTH = 800`. -/
def overlapDefaults : Config :=
  { overlap := true, desiredVSegments := 3, setHSegments := 1 }

/-- `--overlap --hsplit-count 2`, optionally with `--manga`. -/
def overlapTwoCols (manga : Bool) : Config :=
  { overlap := true, desiredVSegments := 3, setHSegments := 2, isManga := manga }

/-- `--special-split 1-1-2`: page 1, one horizontal segment, two vertical
segments requested, no inclusion mask. -/
def spReq2 : SpecialSplits :=
  { active := true, pages := [1], hsplits := [1], vsplits := [2], hoverlap := [70] }

/-- `--special-split 1-1-1-10`: page 1, one horizontal segment, one vertical
segment requested, inclusion mask `"10"`. -/
def spReq1 : SpecialSplits :=
  { active := true, pages := [1], hsplits := [1], vsplits := [1], hoverlap := [70] }

/-- `--special-split 1-1-28`: page 1, one horizontal segment, twenty-eight
vertical segments requested. -/
def spReq28 : SpecialSplits :=
  { active := true, pages := [1], hsplits := [1], vsplits := [28], hoverlap := [70] }

/-- `--split-spreads all --margin 0`. -/
def spreadAllCfg : Config :=
  { margin := true, marginValue := some .v0,
    splitSpreads := true, splitSpreadsPages := ["all"] }

/-- The manga-independent part of an emitted file: everything but the column
label. -/
def segKey (e : Emit) : String × Role × Option Char × Rect :=
  (e.suffix, e.role, e.vLabel, e.rect)

/-! ## Theorems -/

/-- C5: for `W = 2000, H = 3000` with `Nh = 1, Oh = 70, Wmax = 800, Nv0 = 3,
Ovmin = 5` the planner computes `scale = 0.4` (the rational `2/5`),
`tile_w = 2000`, `tile_h = 1200`, and the vertical search terminates with
`Nv = 3` and `stride_v = 900`; `3` is the smallest `Nv ≥ 2` whose stride
satisfies `stride_v / tile_h ≤ 0.95`, since the candidate `Nv = 2` gives
stride `1800` and fails the bound while `Nv = 3` meets it. -/
theorem C5_scenario :
    planSegmentation overlapDefaults {} 1 2000 3000
      = .ok ⟨1, 70, 800, 2 / 5, 2000, 0, 1200, 3, 900⟩
    ∧ ¬ vStrideAt 1200 3000 2 / (1200 : ℚ) ≤ (95 : ℚ) / 100
    ∧ vStrideAt 1200 3000 3 / (1200 : ℚ) ≤ (95 : ℚ) / 100 := by
  refine ⟨by with_unfolding_all decide, by with_unfolding_all decide,
    by with_unfolding_all decide⟩

/-- C9: with `Nh = 1` the horizontal stride formula takes its guarded branch
and yields `stride_h = 0` (the division by `Nh - 1 = 0` is never evaluated),
and the planned grid has exactly one column: its tiles are, row by row, the
full-width rectangles `[0, W]`. -/
theorem C9_single_column (W H ow : ℤ) (sv : ℚ) (nv : ℤ) :
    shiftoverToOverlap ow 1 W = 0 ∧
    (segRects W H ((shiftoverToOverlap ow 1 W : ℤ) : ℚ) sv nv 1).map
        (fun r => (r.left, r.right))
      = List.replicate nv.toNat ((0 : ℚ), (W : ℚ)) := by
  have hsh : shiftoverToOverlap ow 1 W = 0 := by
    unfold shiftoverToOverlap
    simp
  refine ⟨hsh, ?_⟩
  rw [hsh]
  unfold segRects
  have hone : List.range (1 : ℤ).toNat = [0] := rfl
  rw [hone]
  have hrect : ∀ v : ℕ,
      (fun r : Rect => (r.left, r.right)) (tileRect W H ((0 : ℤ) : ℚ) sv nv 1 v 0)
        = ((0 : ℚ), (W : ℚ)) := by
    intro v
    unfold tileRect
    norm_num
  calc (List.map (fun r : Rect => (r.left, r.right))
        ((List.range nv.toNat).flatMap
          (fun v => [0].map (fun h => tileRect W H ((0 : ℤ) : ℚ) sv nv 1 v h))))
      = (List.range nv.toNat).map
          (fun v => (fun r : Rect => (r.left, r.right))
            (tileRect W H ((0 : ℤ) : ℚ) sv nv 1 v 0)) := by
        rw [List.map_flatMap]
        exact Eq.symm (List.map_eq_flatMap _ _)
    _ = (List.range nv.toNat).map (fun _ => ((0 : ℚ), (W : ℚ))) := by
        simp only [hrect]
    _ = List.replicate nv.toNat ((0 : ℚ), (W : ℚ)) := by
        rw [List.map_const']
        simp

/-- C7 counterexample: with `--margin 0` active and the half-selector suffix
`"_1"`, the margin block takes the `MARGIN_VALUE == "0"` branch and performs
no crop at all, not the auto-bbox crop the claim promises unconditionally. -/
theorem C7_counterexample :
    marginStep true (some .v0) "_1" = .ok .noCrop
    ∧ CropAction.noCrop ≠ CropAction.autoBbox 59 40 := by
  refine ⟨by with_unfolding_all decide, by decide⟩

/-- C7 amended: whenever a half-selector suffix is active and the margin
option was supplied with any value other than `"0"`, the auto-bbox crop
(invert, autocontrast with cutoff `(59, 40)`, crop to the content bounding
box) is applied; with value `"0"` no crop happens, and with no `--margin`
option the read of `MARGIN_VALUE` raises `NameError` instead. -/
theorem C7_amended (m : Bool) (mv : MarginVal) (s : String)
    (hs : s ≠ "") (hv : mv ≠ .v0) :
    marginStep m (some mv) s = .ok (.autoBbox 59 40) := by
  unfold marginStep
  rw [if_pos (Or.inr hs)]
  simp only [if_neg hv, if_pos (Or.inr hs)]

/-- C7 witness: a concrete half-page run with `--margin 5` takes the
auto-bbox branch. -/
theorem C7_amended_witness :
    marginStep true (some (.vnum 5)) "_1" = .ok (.autoBbox 59 40) :=
  C7_amended true (.vnum 5) "_1" (by decide) (by decide)

/-- Once the stride-ratio test fails (and `overlapping_height` is nonzero so
the test itself does not raise), the vertical search loop exits immediately
with its current state, whatever fuel remains. -/
theorem vsearchGo_exit (th H : ℤ) (ovmin : ℚ) (fuel : ℕ) (nv : ℤ) (sd : ℚ)
    (hth : ¬ th = 0) (hsd : ¬ (1 - ovmin / 100 < sd / (th : ℚ))) :
    vsearchGo th H ovmin fuel nv sd = .ok (nv, sd) := by
  cases fuel with
  | zero => rfl
  | succ n =>
    unfold vsearchGo
    by_cases h : nv < 26
    · rw [if_pos h, if_neg hth, if_neg hsd]
    · rw [if_neg h]

/-- C4 counterexample: page 1 carries the override `--special-split 1-1-2`
(requested vertical count 2), yet on a 2000 × 3000-after-margins page of
height 4000 the planner emits `Nv = 3`: the first computed stride is
`2800 > 2 · tile_h = 2400`, so even with `Ovmin = -100` the loop condition
`stride_v / tile_h > 1 - (-100)/100 = 2` holds and the loop runs again. -/
theorem C4_counterexample :
    spReq2.vsplits = [2]
    ∧ planSegmentation overlapDefaults spReq2 1 2000 4000
        = .ok ⟨1, 70, 800, 2 / 5, 2000, 0, 1200, 3, 1400⟩
    ∧ (3 : ℤ) ≠ 2 := by
  refine ⟨rfl, by with_unfolding_all decide, by decide⟩

/-- C4 amended: a per-page `SpecialSplit` override does set the minimum
vertical overlap to `-100`; the search loop then accepts the first computed
count — returning exactly the requested `Nv` — provided the requested count
is at most 26, `tile_h` is positive and small enough that the sentinel ratio
`99999 / tile_h` exceeds 2, and the first computed stride satisfies
`stride_v / tile_h ≤ 2` (pages taller than `tile_h · (2·Nv - 1)` violate
this and force further iterations). -/
theorem C4_amended (cfg : Config) (sp : SpecialSplits) (page th H req : ℤ)
    (pos : ℕ) (hpos : overridePos sp page = some pos)
    (hreq : sp.vsplits.get? pos = some req)
    (hth : 0 < th) (hinit : (2 : ℚ) < 99999 / (th : ℚ)) (hcap : req ≤ 26)
    (hstop : vStrideAt th H req / (th : ℚ) ≤ 2) :
    resolveVStart cfg sp page = .ok (req - 1, -100)
    ∧ vsearch th H (-100) (req - 1) = .ok (req, vStrideAt th H req) := by
  constructor
  · have hreq2 : sp.vsplits[pos]? = some req := by
      rw [← List.get?_eq_getElem?]
      exact hreq
    simp [resolveVStart, hpos, hreq2]
  · unfold vsearch
    have hfuel : (26 - (req - 1)).toNat = (26 - req).toNat + 1 := by omega
    rw [hfuel]
    unfold vsearchGo
    rw [if_pos (by omega : req - 1 < 26)]
    rw [if_neg (by omega : ¬ th = 0)]
    have hcond : 1 - (-100 : ℚ) / 100 < (99999 : ℚ) / (th : ℚ) := by
      norm_num
      linarith
    rw [if_pos hcond]
    have hone : req - 1 + 1 = req := by ring
    rw [hone]
    apply vsearchGo_exit
    · omega
    · norm_num
      linarith

/-- One-dimensional covering: `n ≥ 1` anchored windows of common length
`D - s·(n-1)` whose left edges are the multiples of a nonnegative stride `s`
with `s·n ≤ D` jointly cover `[0, D]`. -/
theorem coverOneAxis (n : ℤ) (s : ℚ) (D : ℤ) (hn : 1 ≤ n) (hs : 0 ≤ s)
    (hD : s * (n : ℚ) ≤ (D : ℚ)) (x : ℚ) (hx0 : 0 ≤ x) (hxD : x ≤ (D : ℚ)) :
    ∃ j : ℕ, (j : ℤ) < n ∧ s * (j : ℚ) ≤ x
      ∧ x ≤ (D : ℚ) - s * ((n : ℚ) - 1 - (j : ℚ)) := by
  rcases eq_or_lt_of_le hs with hs0 | hs0
  · refine ⟨0, by omega, ?_, ?_⟩
    · rw [← hs0]
      simpa using hx0
    · rw [← hs0]
      simpa using hxD
  · set jz : ℤ := min (n - 1) ⌊x / s⌋ with hjzdef
    have hfl0 : 0 ≤ ⌊x / s⌋ := Int.floor_nonneg.mpr (div_nonneg hx0 (le_of_lt hs0))
    have hjz0 : 0 ≤ jz := le_min (by omega) hfl0
    have hnatz : ((jz.toNat : ℕ) : ℤ) = jz := Int.toNat_of_nonneg hjz0
    have hq : ((jz.toNat : ℕ) : ℚ) = ((jz : ℤ) : ℚ) := by
      exact_mod_cast congrArg (fun z : ℤ => (z : ℚ)) hnatz
    have hjle : jz ≤ ⌊x / s⌋ := min_le_right _ _
    have hjn : jz ≤ n - 1 := min_le_left _ _
    refine ⟨jz.toNat, by omega, ?_, ?_⟩
    · rw [hq]
      have h1 : ((jz : ℤ) : ℚ) ≤ x / s := by
        calc ((jz : ℤ) : ℚ) ≤ ((⌊x / s⌋ : ℤ) : ℚ) := by exact_mod_cast hjle
          _ ≤ x / s := Int.floor_le _
      calc s * ((jz : ℤ) : ℚ) ≤ s * (x / s) := by
            exact mul_le_mul_of_nonneg_left h1 hs
        _ = x := by
            rw [mul_comm]
            exact div_mul_cancel₀ x (ne_of_gt hs0)
    · rw [hq]
      rcases le_or_lt (n - 1) ⌊x / s⌋ with hc | hc
      · have hjeq : jz = n - 1 := by omega
        rw [hjeq]
        push_cast
        ring_nf
        linarith
      · have hjeq : jz = ⌊x / s⌋ := by omega
        have hlt : x < s * (((jz : ℤ) : ℚ) + 1) := by
          rw [hjeq]
          have := Int.lt_floor_add_one (x / s)
          calc x = x / s * s := (div_mul_cancel₀ x (ne_of_gt hs0)).symm
            _ < (((⌊x / s⌋ : ℤ) : ℚ) + 1) * s := by
                apply mul_lt_mul_of_pos_right _ hs0
                exact_mod_cast this
            _ = s * (((⌊x / s⌋ : ℤ) : ℚ) + 1) := by ring
        have hjq : ((jz : ℤ) : ℚ) ≤ (n : ℚ) - 1 - 1 := by
          have hz : jz ≤ n - 1 - 1 := by omega
          exact_mod_cast hz
        nlinarith [hD, hlt]

/-- Every pair of indices inside the grid yields a rectangle of the emitted
segment list. -/
theorem tileRect_mem_segRects {W H : ℤ} {sh sv : ℚ} {nv nh : ℤ} {v h : ℕ}
    (hv : (v : ℤ) < nv) (hh : (h : ℤ) < nh) :
    tileRect W H sh sv nv nh v h ∈ segRects W H sh sv nv nh := by
  unfold segRects
  rw [List.mem_flatMap]
  refine ⟨v, ?_, ?_⟩
  · rw [List.mem_range]
    omega
  · rw [List.mem_map]
    exact ⟨h, by rw [List.mem_range]; omega, rfl⟩

/-- Conversely, every member of the emitted segment list is a grid
rectangle. -/
theorem mem_segRects {W H : ℤ} {sh sv : ℚ} {nv nh : ℤ} {r : Rect}
    (hr : r ∈ segRects W H sh sv nv nh) :
    ∃ v h : ℕ, (v : ℤ) < nv ∧ (h : ℤ) < nh ∧ r = tileRect W H sh sv nv nh v h := by
  unfold segRects at hr
  rw [List.mem_flatMap] at hr
  obtain ⟨v, hv, hmap⟩ := hr
  rw [List.mem_map] at hmap
  obtain ⟨h, hh, hrect⟩ := hmap
  rw [List.mem_range] at hv hh
  exact ⟨v, h, by omega, by omega, hrect.symm⟩

/-- C1 counterexample: on a 100 × 2000 page under the plain `--overlap`
defaults (`Nh = 1`, `Oh = 70`, `Wmax = 800`, `Nv0 = 3`, `Ovmin = 5`) the
vertical search saturates at the 26-segment cap with `tile_h = 60` and
`stride_v = 78 > tile_h`, and the emitted grid leaves gaps: the page point
`(0, 60)` lies in no tile, so the union of the tile rectangles is not
`[0,W] × [0,H]`. -/
theorem C1_counterexample :
    planSegmentation overlapDefaults {} 1 100 2000
      = .ok ⟨1, 70, 800, 8, 100, 0, 60, 26, 78⟩
    ∧ ¬ coversPage (segRects 100 2000 0 78 26 1) 100 2000 := by
  constructor
  · with_unfolding_all decide
  · intro hcov
    have hpt := (hcov 0 60).mp (by norm_num)
    have hno : ¬ ∃ r ∈ segRects 100 2000 0 78 26 1, inRect r 0 60 := by
      with_unfolding_all decide
    exact hno hpt

/-- C1 amended: the union of the emitted `Nv × Nh` tile rectangles equals
`[0,W] × [0,H]` whenever the computed strides are nonnegative and satisfy
`stride_h · Nh ≤ W` and `stride_v · Nv ≤ H` (as holds in ordinary runs where
the overlap search succeeds with room to spare); when the 26-segment cap or a
degenerate policy violates these bounds the grid can leave gaps, as on the
100 × 2000 default-policy page. -/
theorem C1_amended (W H nv nh : ℤ) (sh sv : ℚ)
    (hnh : 1 ≤ nh) (hnv : 1 ≤ nv) (hsh : 0 ≤ sh) (hsv : 0 ≤ sv)
    (hw : sh * (nh : ℚ) ≤ (W : ℚ)) (hh : sv * (nv : ℚ) ≤ (H : ℚ)) :
    coversPage (segRects W H sh sv nv nh) W H := by
  intro x y
  constructor
  · rintro ⟨hx0, hxW, hy0, hyH⟩
    obtain ⟨jh, hjh, hxl, hxr⟩ := coverOneAxis nh sh W hnh hsh hw x hx0 hxW
    obtain ⟨jv, hjv, hyt, hyb⟩ := coverOneAxis nv sv H hnv hsv hh y hy0 hyH
    exact ⟨tileRect W H sh sv nv nh jv jh, tileRect_mem_segRects hjv hjh,
      hxl, hxr, hyt, hyb⟩
  · rintro ⟨r, hrmem, hx1, hx2, hy1, hy2⟩
    obtain ⟨v, h, hv, hhb, hreq⟩ := mem_segRects hrmem
    subst hreq
    unfold tileRect at hx1 hx2 hy1 hy2
    simp only at hx1 hx2 hy1 hy2
    have hh0 : (0 : ℚ) ≤ (h : ℚ) := by positivity
    have hv0 : (0 : ℚ) ≤ (v : ℚ) := by positivity
    have hhn : (0 : ℚ) ≤ (nh : ℚ) - 1 - (h : ℚ) := by
      have : (h : ℤ) ≤ nh - 1 := by omega
      have hcast : ((h : ℕ) : ℚ) ≤ ((nh : ℤ) : ℚ) - 1 := by exact_mod_cast this
      linarith
    have hvn : (0 : ℚ) ≤ (nv : ℚ) - 1 - (v : ℚ) := by
      have : (v : ℤ) ≤ nv - 1 := by omega
      have hcast : ((v : ℕ) : ℚ) ≤ ((nv : ℤ) : ℚ) - 1 := by exact_mod_cast this
      linarith
    refine ⟨?_, ?_, ?_, ?_⟩
    · have := mul_nonneg hsh hh0
      linarith
    · have := mul_nonneg hsh hhn
      linarith
    · have := mul_nonneg hsv hv0
      linarith
    · have := mul_nonneg hsv hvn
      linarith

/-- C1 witness: the default-policy 2000 × 3000 page plans `Nh = 1`,
`stride_h = 0`, `Nv = 3`, `stride_v = 900`, and those values satisfy the
amended hypotheses, so its tile union is exactly the page. -/
theorem C1_amended_witness :
    coversPage (segRects 2000 3000 0 900 3 1) 2000 3000 :=
  C1_amended 2000 3000 3 1 0 900 (by decide) (by decide) (by norm_num)
    (by norm_num) (by norm_num) (by norm_num)

/-- Reversing the 26-letter column alphabet does not change which indices
are in range: `letter_keys_hsplit[h]` exists exactly when `h < 26`, manga or
not. -/
theorem hsplitKeys_get_none (manga : Bool) (h : ℕ) :
    (hsplitKeys manga).get? h = none ↔ 26 ≤ h := by
  rw [List.get?_eq_none]
  cases manga <;> simp [hsplitKeys, letterKeys]

theorem emitSegRender_rel (suffix : String) (vl : Char) (hl₁ hl₂ : Option Char)
    (r : Rect) (mi : Option ℕ) (st₁ st₂ : EmitState)
    (he : st₁.emits.map segKey = st₂.emits.map segKey)
    (ht : st₁.table = st₂.table) (herr : st₁.err = st₂.err) :
    (emitSegRender suffix vl hl₁ r mi st₁).emits.map segKey
      = (emitSegRender suffix vl hl₂ r mi st₂).emits.map segKey
    ∧ (emitSegRender suffix vl hl₁ r mi st₁).table
      = (emitSegRender suffix vl hl₂ r mi st₂).table
    ∧ (emitSegRender suffix vl hl₁ r mi st₁).err
      = (emitSegRender suffix vl hl₂ r mi st₂).err := by
  have hlst : (match mi with
      | none => ([] : List Char)
      | some i => (st₁.table.get? i).getD [])
      = (match mi with
      | none => ([] : List Char)
      | some i => (st₂.table.get? i).getD []) := by rw [ht]
  unfold emitSegRender
  simp only [hlst, ht, herr]
  by_cases hrend : ((match mi with
      | none => ([] : List Char)
      | some i => (st₂.table.get? i).getD []).isEmpty
      || ((match mi with
      | none => ([] : List Char)
      | some i => (st₂.table.get? i).getD []).head? = some '1' : Bool)) = true
  · rw [if_pos hrend, if_pos hrend]
    by_cases hdeg : r.right = r.left ∨ r.bottom = r.top
    · rw [if_pos hdeg, if_pos hdeg]
      exact ⟨he, rfl, rfl⟩
    · rw [if_neg hdeg, if_neg hdeg]
      simp only
      cases herr2 : st₂.err with
      | some e =>
        refine ⟨?_, ?_, ?_⟩ <;> simp [List.map_append, he, segKey]
      | none =>
        cases mi with
        | none =>
          refine ⟨?_, ?_, ?_⟩ <;> simp [List.map_append, he, segKey]
        | some i =>
          rcases hlv : st₂.table[i]?.getD [] with _ | ⟨a, rest⟩
          · refine ⟨?_, ?_, ?_⟩ <;> simp [hlv, List.map_append, he, segKey]
          · refine ⟨?_, ?_, ?_⟩ <;> simp [hlv, List.map_append, he, segKey]
  · rw [if_neg hrend, if_neg hrend]
    rw [herr]
    cases herr2 : st₂.err with
    | some e => exact ⟨he, ht, herr⟩
    | none =>
      cases mi with
      | none => exact ⟨he, ht, herr⟩
      | some i =>
        rcases hlv : st₂.table[i]?.getD [] with _ | ⟨a, rest⟩
        · refine ⟨?_, ?_, ?_⟩ <;> simp [hlv, he, ht, herr]
        · refine ⟨?_, ?_, ?_⟩ <;> simp [hlv, he, ht, herr]

/-- The save-and-consume tail of an emission iteration relates a manga run to
a non-manga run: only the column label of the appended file can differ. -/
theorem emitSegStep_manga_rel (W H : ℤ) (sh sv : ℚ) (nv nh : ℤ) (suffix : String)
    (mi : Option ℕ) (p : ℕ × ℕ) (st₁ st₂ : EmitState)
    (he : st₁.emits.map segKey = st₂.emits.map segKey)
    (ht : st₁.table = st₂.table) (herr : st₁.err = st₂.err) :
    (emitSegStep W H sh sv nv nh true suffix mi st₁ p).emits.map segKey
      = (emitSegStep W H sh sv nv nh false suffix mi st₂ p).emits.map segKey
    ∧ (emitSegStep W H sh sv nv nh true suffix mi st₁ p).table
      = (emitSegStep W H sh sv nv nh false suffix mi st₂ p).table
    ∧ (emitSegStep W H sh sv nv nh true suffix mi st₁ p).err
      = (emitSegStep W H sh sv nv nh false suffix mi st₂ p).err := by
  unfold emitSegStep
  cases hE : st₁.err with
  | some e =>
    have herr2 : st₂.err = some e := by rw [← herr, hE]
    rw [herr2]
    exact ⟨he, ht, herr⟩
  | none =>
    have herr2 : st₂.err = none := by rw [← herr, hE]
    rw [herr2]
    simp only
    by_cases hbox : (tileRect W H sh sv nv nh p.1 p.2).right < (tileRect W H sh sv nv nh p.1 p.2).left
        ∨ (tileRect W H sh sv nv nh p.1 p.2).bottom < (tileRect W H sh sv nv nh p.1 p.2).top
    · rw [if_pos hbox, if_pos hbox]
      exact ⟨he, ht, rfl⟩
    · rw [if_neg hbox, if_neg hbox]
      cases hvl : letterKeys.get? p.1 with
      | none => exact ⟨he, ht, rfl⟩
      | some vl =>
        simp only
        by_cases hnh1 : 1 < nh
        · rw [if_pos hnh1, if_pos hnh1]
          cases hg1 : (hsplitKeys true).get? p.2 with
          | none =>
            have h26 : 26 ≤ p.2 := (hsplitKeys_get_none true p.2).mp hg1
            have hg2 : (hsplitKeys false).get? p.2 = none :=
              (hsplitKeys_get_none false p.2).mpr h26
            rw [hg2]
            exact ⟨he, ht, rfl⟩
          | some c1 =>
            cases hg2 : (hsplitKeys false).get? p.2 with
            | none =>
              have h26 : 26 ≤ p.2 := (hsplitKeys_get_none false p.2).mp hg2
              have hcon : (hsplitKeys true).get? p.2 = none :=
                (hsplitKeys_get_none true p.2).mpr h26
              rw [hcon] at hg1
              cases hg1
            | some c2 =>
              exact emitSegRender_rel suffix vl (some c1) (some c2) _ mi st₁ st₂ he ht herr
        · rw [if_neg hnh1, if_neg hnh1]
          exact emitSegRender_rel suffix vl none none _ mi st₁ st₂ he ht herr

theorem emitSegFold_manga_rel (W H : ℤ) (sh sv : ℚ) (nv nh : ℤ) (suffix : String)
    (mi : Option ℕ) (l : List (ℕ × ℕ)) :
    ∀ st₁ st₂ : EmitState,
    st₁.emits.map segKey = st₂.emits.map segKey → st₁.table = st₂.table →
    st₁.err = st₂.err →
    (l.foldl (emitSegStep W H sh sv nv nh true suffix mi) st₁).emits.map segKey
      = (l.foldl (emitSegStep W H sh sv nv nh false suffix mi) st₂).emits.map segKey
    ∧ (l.foldl (emitSegStep W H sh sv nv nh true suffix mi) st₁).table
      = (l.foldl (emitSegStep W H sh sv nv nh false suffix mi) st₂).table
    ∧ (l.foldl (emitSegStep W H sh sv nv nh true suffix mi) st₁).err
      = (l.foldl (emitSegStep W H sh sv nv nh false suffix mi) st₂).err := by
  induction l with
  | nil => intro st₁ st₂ he ht herr; exact ⟨he, ht, herr⟩
  | cons p rest ih =>
    intro st₁ st₂ he ht herr
    obtain ⟨he1, ht1, herr1⟩ :=
      emitSegStep_manga_rel W H sh sv nv nh suffix mi p st₁ st₂ he ht herr
    exact ih _ _ he1 ht1 herr1

/-- C4 witness: the override `--special-split 1-1-2` on a 2000 × 3000 page
resolves to start count 1 with `Ovmin = -100` and the loop stops at the
requested count 2 with the first computed stride. -/
theorem C4_amended_witness :
    resolveVStart overlapDefaults spReq2 1 = .ok (1, -100)
    ∧ vsearch 1200 3000 (-100) 1 = .ok (2, vStrideAt 1200 3000 2) :=
  C4_amended overlapDefaults spReq2 1 1200 3000 2 0
    (by with_unfolding_all decide) (by decide) (by decide)
    (by with_unfolding_all decide) (by decide)
    (by with_unfolding_all decide)

end Cbz2Xtc

namespace Cbz2Xtc

/-- C8 counterexample: on a 2000 × 3000 page with `--overlap --hsplit-count 2
--manga` the planner computes `stride_h = 462`, and the FIRST emitted tile is
still the leftmost column's rectangle (left edge 0) — its column label is
`'z'`, the head of the reversed alphabet — while the rightmost column's
rectangle (left edge 462) is a different rectangle emitted later.  The manga
flag therefore reverses the column-label assignment, not the emission
order. -/
theorem C8_counterexample :
    planSegmentation (overlapTwoCols true) {} 1 2000 3000
      = .ok ⟨2, 70, 1040, 13 / 25, 1538, 462, 923, 4, 693⟩
    ∧ ((emitSegLoop 2000 3000 462 693 4 2 true "" none []).emits.head?.map
        fun e => (e.rect.left, e.hLabel)) = some ((0 : ℚ), some 'z')
    ∧ tileRect 2000 3000 462 693 4 2 0 0 ≠ tileRect 2000 3000 462 693 4 2 0 1 := by
  refine ⟨by with_unfolding_all decide, by with_unfolding_all decide,
    by with_unfolding_all decide⟩

/-- C8 amended: the manga flag draws the column labels from the reversed
alphabet and changes nothing else — for every page geometry, stride pair,
suffix and mask state, the emission of a manga run agrees with the non-manga
run in suffixes, roles, row labels, crop rectangles (in the same order), in
the final mask table, and in the raised error, differing at most in the
column-label field. -/
theorem C8_amended (W H : ℤ) (sh sv : ℚ) (nv nh : ℤ) (suffix : String)
    (mi : Option ℕ) (table : MaskTable) :
    hsplitKeys true = letterKeys.reverse
    ∧ (emitSegLoop W H sh sv nv nh true suffix mi table).emits.map segKey
      = (emitSegLoop W H sh sv nv nh false suffix mi table).emits.map segKey
    ∧ (emitSegLoop W H sh sv nv nh true suffix mi table).table
      = (emitSegLoop W H sh sv nv nh false suffix mi table).table
    ∧ (emitSegLoop W H sh sv nv nh true suffix mi table).err
      = (emitSegLoop W H sh sv nv nh false suffix mi table).err := by
  refine ⟨rfl, ?_⟩
  unfold emitSegLoop
  exact emitSegFold_manga_rel W H sh sv nv nh suffix mi (segPairs nv nh)
    ⟨[], table, none⟩ ⟨[], table, none⟩ rfl rfl rfl

end Cbz2Xtc


namespace Cbz2Xtc

/-- The save-and-consume step never touches mask-table entries other than
the one it aliases. -/
theorem emitSegRender_table_frame (suffix : String) (vl : Char) (hl : Option Char)
    (r : Rect) (mi : Option ℕ) (st : EmitState) (j : ℕ) (hj : mi ≠ some j) :
    (emitSegRender suffix vl hl r mi st).table.get? j = st.table.get? j := by
  unfold emitSegRender
  simp only
  by_cases hrend : ((match mi with
      | none => ([] : List Char)
      | some i => (st.table.get? i).getD []).isEmpty
      || ((match mi with
      | none => ([] : List Char)
      | some i => (st.table.get? i).getD []).head? = some '1' : Bool)) = true
  · rw [if_pos hrend]
    by_cases hdeg : r.right = r.left ∨ r.bottom = r.top
    · rw [if_pos hdeg]
    · rw [if_neg hdeg]
      simp only
      cases herr : st.err with
      | some e => rfl
      | none =>
        cases mi with
        | none => rfl
        | some i =>
          have hij : i ≠ j := fun hc => hj (by rw [hc])
          rcases hlv : st.table[i]?.getD [] with _ | ⟨a, rest⟩
          · simp [hlv]
          · simp [hlv, List.getElem?_set_ne hij]
  · rw [if_neg hrend]
    cases herr : st.err with
    | some e => rfl
    | none =>
      cases mi with
      | none => rfl
      | some i =>
        have hij : i ≠ j := fun hc => hj (by rw [hc])
        rcases hlv : st.table[i]?.getD [] with _ | ⟨a, rest⟩
        · simp [hlv]
        · simp [hlv, List.getElem?_set_ne hij]

/-- One emission iteration never touches mask-table entries other than the
one it aliases. -/
theorem emitSegStep_table_frame (W H : ℤ) (sh sv : ℚ) (nv nh : ℤ) (manga : Bool)
    (suffix : String) (mi : Option ℕ) (p : ℕ × ℕ) (st : EmitState) (j : ℕ)
    (hj : mi ≠ some j) :
    (emitSegStep W H sh sv nv nh manga suffix mi st p).table.get? j
      = st.table.get? j := by
  unfold emitSegStep
  cases hE : st.err with
  | some e => rfl
  | none =>
    simp only
    by_cases hbox : (tileRect W H sh sv nv nh p.1 p.2).right < (tileRect W H sh sv nv nh p.1 p.2).left
        ∨ (tileRect W H sh sv nv nh p.1 p.2).bottom < (tileRect W H sh sv nv nh p.1 p.2).top
    · rw [if_pos hbox]
    · rw [if_neg hbox]
      cases hvl : letterKeys.get? p.1 with
      | none => rfl
      | some vl =>
        simp only
        by_cases hnh1 : 1 < nh
        · rw [if_pos hnh1]
          cases hg : (hsplitKeys manga).get? p.2 with
          | none => rfl
          | some c => exact emitSegRender_table_frame suffix vl (some c) _ mi st j hj
        · rw [if_neg hnh1]
          exact emitSegRender_table_frame suffix vl none _ mi st j hj

/-- The whole emission loop never touches mask-table entries other than the
one it aliases. -/
theorem emitSegLoop_table_frame (W H : ℤ) (sh sv : ℚ) (nv nh : ℤ) (manga : Bool)
    (suffix : String) (mi : Option ℕ) (table : MaskTable) (j : ℕ)
    (hj : mi ≠ some j) :
    (emitSegLoop W H sh sv nv nh manga suffix mi table).table.get? j
      = table.get? j := by
  unfold emitSegLoop
  have hgen : ∀ (l : List (ℕ × ℕ)) (st : EmitState),
      (l.foldl (emitSegStep W H sh sv nv nh manga suffix mi) st).table.get? j
        = st.table.get? j := by
    intro l
    induction l with
    | nil => intro st; rfl
    | cons p rest ih =>
      intro st
      rw [List.foldl_cons, ih]
      exact emitSegStep_table_frame W H sh sv nv nh manga suffix mi p st j hj
  exact hgen _ _


/-- The overlap-segment emission never touches mask-table entries other than
the processed page's own override entry. -/
theorem runSegEmission_table_frame (cfg : Config) (sp : SpecialSplits)
    (page W H : ℤ) (plan : SegPlan) (suffix : String) (ovs : List Emit)
    (table : MaskTable) (j : ℕ) (hj : overridePos sp page ≠ some j) :
    (runSegEmission cfg sp page W H plan suffix ovs table).table.get? j
      = table.get? j := by
  unfold runSegEmission
  split
  · rename_i pos heq
    split
    · rfl
    · rename_i l hget
      exact emitSegLoop_table_frame W H plan.sh plan.sv plan.nv plan.nh
        cfg.isManga suffix (some pos) table j (by rw [← heq]; exact hj)
  · exact emitSegLoop_table_frame W H plan.sh plan.sv plan.nv plan.nh
      cfg.isManga suffix none table j (by simp)

end Cbz2Xtc
namespace Cbz2Xtc

/-- The splitting arm never touches mask-table entries other than the
processed page's own override entry. -/
theorem runSplitBranch_table_frame (cfg : Config) (sp : SpecialSplits)
    (page : ℤ) (suffix : String) (W1 H1 W2 H2 : ℤ) (table : MaskTable) (j : ℕ)
    (hj : overridePos sp page ≠ some j) :
    (runSplitBranch cfg sp page suffix W1 H1 W2 H2 table).table.get? j
      = table.get? j := by
  unfold runSplitBranch
  repeat' split
  all_goals first
    | rfl
    | (apply runSegEmission_table_frame _ _ _ _ _ _ _ _ _ _ hj)

/-- C3 amended: processing a page does mutate the shared override state —
the `pop(0)` of line 388 consumes the page's own inclusion-mask list through
the alias taken at line 357 — but it never touches any other entry of the
`SPECIAL_SPLIT_BOOLEANS` table: for every configuration, page, suffix, fuel
and starting table, every entry other than the processed page's own override
position is unchanged after the run (spread recursion included). -/
theorem C3_amended (cfg : Config) (sp : SpecialSplits)
    (inp : PageInput) (fuel : ℕ) (page : ℤ) (suffix : String)
    (table : MaskTable) (j : ℕ) (hj : overridePos sp page ≠ some j) :
    (optimizeImage cfg sp inp fuel page suffix table).table.get? j
      = table.get? j := by
  induction fuel generalizing suffix table with
  | zero => rfl
  | succ n ih =>
    unfold optimizeImage
    by_cases h1 : inp.decodable = false
    · rw [if_pos h1]
    · rw [if_neg h1]
      by_cases h2 : cfg.skipOn = true ∧ toString page ∈ cfg.skipPages
      · rw [if_pos h2]
      · rw [if_neg h2]
        by_cases h3 : cfg.startPage ≠ 0 ∧ page < cfg.startPage
        · rw [if_pos h3]
        · rw [if_neg h3]
          by_cases h4 : cfg.stopPage ≠ 0 ∧ cfg.stopPage < page
          · rw [if_pos h4]
          · rw [if_neg h4]
            by_cases h5 : cfg.onlyOn = true ∧ toString page ∉ cfg.onlyPages
            · rw [if_pos h5]
            · rw [if_neg h5]
              by_cases h6 : cfg.sampleSet = true
              · rw [if_pos h6]
              · rw [if_neg h6]
                cases hm : marginStep cfg.margin cfg.marginValue suffix with
                | error e => rfl
                | ok action =>
                  simp only
                  cases hc : applyCrop inp action
                      (if suffix = "_1" ∨ suffix = "_2"
                        then inp.w - pyint ((50 : ℚ) / 100 * inp.w) else inp.w)
                      inp.h with
                  | error e => rfl
                  | ok dims =>
                    obtain ⟨W2, H2⟩ := dims
                    simp only
                    by_cases h7 : shouldSplitPage cfg page suffix W2 H2 = true
                    · rw [if_pos h7]
                      exact runSplitBranch_table_frame _ _ _ _ _ _ _ _ _ _ hj
                    · rw [if_neg h7]
                      by_cases h8 : H2 ≤ W2 ∨ toString page ∈ cfg.splitSpreadsPages
                      · rw [if_pos h8]
                        by_cases h9 : W2 = 0 ∨ H2 = 0
                        · rw [if_pos h9]
                        · rw [if_neg h9]
                          by_cases h10 : cfg.splitSpreads = true
                          · rw [if_pos h10]
                            cases hh : cfg.splitSpreadsPages.head? with
                            | none => rfl
                            | some p0 =>
                              simp only
                              by_cases h11 : p0 = "all" ∨ toString page ∈ cfg.splitSpreadsPages
                              · rw [if_pos h11]
                                simp only [ih]
                              · rw [if_neg h11]
                          · rw [if_neg h10]
                      · rw [if_neg h8]
                        by_cases h13 : (if suffix = "_1" ∨ suffix = "_2"
                            then inp.w - pyint ((50 : ℚ) / 100 * inp.w) else inp.w) = 0 ∨ inp.h = 0
                        · rw [if_pos h13]
                        · rw [if_neg h13]

end Cbz2Xtc
namespace Cbz2Xtc

/-- C3 counterexample: a page with the override `--special-split 1-1-1-10`
(inclusion mask `"10"`) is processed once under `--overlap`; afterwards the
global `SPECIAL_SPLIT_BOOLEANS` table no longer equals its starting value —
the page's mask list has been consumed from `['1','0']` down to `['0']`,
because `use_segment_list` aliases the table entry and `pop(0)` mutates it. -/
theorem C3_counterexample :
    (optimizeImage overlapDefaults spReq1 (pgIn 1000 1500) 1 1 "" [['1', '0']]).table
      = [['0']]
    ∧ ([['0']] : MaskTable) ≠ [['1', '0']] := by
  refine ⟨by with_unfolding_all decide, by decide⟩

/-- C3 witness: with a two-entry table, processing page 1 (override position
0) leaves entry 1 untouched. -/
theorem C3_amended_witness :
    (optimizeImage overlapDefaults spReq1 (pgIn 1000 1500) 1 1 ""
      [['1', '0'], ['1']]).table.get? 1 = [['1', '0'], ['1']].get? 1 :=
  C3_amended overlapDefaults spReq1 (pgIn 1000 1500) 1 1 "" [['1', '0'], ['1']] 1
    (by with_unfolding_all decide)

end Cbz2Xtc

namespace Cbz2Xtc

/-- The save-and-consume step only ever appends segment-role files. -/
theorem emitSegRender_no_spread (suffix : String) (vl : Char) (hl : Option Char)
    (r : Rect) (mi : Option ℕ) (st : EmitState)
    (h : (st.emits.all fun e => e.role != Role.spread) = true) :
    ((emitSegRender suffix vl hl r mi st).emits.all
      fun e => e.role != Role.spread) = true := by
  unfold emitSegRender
  simp only
  by_cases hrend : ((match mi with
      | none => ([] : List Char)
      | some i => (st.table.get? i).getD []).isEmpty
      || ((match mi with
      | none => ([] : List Char)
      | some i => (st.table.get? i).getD []).head? = some '1' : Bool)) = true
  · rw [if_pos hrend]
    by_cases hdeg : r.right = r.left ∨ r.bottom = r.top
    · rw [if_pos hdeg]
      simpa using h
    · rw [if_neg hdeg]
      simp only
      cases herr : st.err with
      | some e => simpa [List.all_append] using h
      | none =>
        cases mi with
        | none => simpa [List.all_append] using h
        | some i =>
          rcases hlv : st.table[i]?.getD [] with _ | ⟨a, rest⟩
          · simp [hlv, List.all_append, h]
          · simp [hlv, List.all_append, h]
  · rw [if_neg hrend]
    cases herr : st.err with
    | some e => simpa using h
    | none =>
      cases mi with
      | none => simpa using h
      | some i =>
        rcases hlv : st.table[i]?.getD [] with _ | ⟨a, rest⟩
        · simpa [hlv] using h
        · simpa [hlv] using h

/-- One emission iteration only ever appends segment-role files. -/
theorem emitSegStep_no_spread (W H : ℤ) (sh sv : ℚ) (nv nh : ℤ) (manga : Bool)
    (suffix : String) (mi : Option ℕ) (p : ℕ × ℕ) (st : EmitState)
    (h : (st.emits.all fun e => e.role != Role.spread) = true) :
    ((emitSegStep W H sh sv nv nh manga suffix mi st p).emits.all
      fun e => e.role != Role.spread) = true := by
  unfold emitSegStep
  cases hE : st.err with
  | some e => exact h
  | none =>
    simp only
    by_cases hbox : (tileRect W H sh sv nv nh p.1 p.2).right < (tileRect W H sh sv nv nh p.1 p.2).left
        ∨ (tileRect W H sh sv nv nh p.1 p.2).bottom < (tileRect W H sh sv nv nh p.1 p.2).top
    · rw [if_pos hbox]
      exact h
    · rw [if_neg hbox]
      cases hvl : letterKeys.get? p.1 with
      | none => exact h
      | some vl =>
        simp only
        by_cases hnh1 : 1 < nh
        · rw [if_pos hnh1]
          cases hg : (hsplitKeys manga).get? p.2 with
          | none => exact h
          | some c => exact emitSegRender_no_spread suffix vl (some c) _ mi st h
        · rw [if_neg hnh1]
          exact emitSegRender_no_spread suffix vl none _ mi st h

/-- Every file the emission loop produces has the segment role. -/
theorem emitSegLoop_no_spread (W H : ℤ) (sh sv : ℚ) (nv nh : ℤ) (manga : Bool)
    (suffix : String) (mi : Option ℕ) (table : MaskTable) :
    ((emitSegLoop W H sh sv nv nh manga suffix mi table).emits.all
      fun e => e.role != Role.spread) = true := by
  unfold emitSegLoop
  have hgen : ∀ (l : List (ℕ × ℕ)) (st : EmitState),
      (st.emits.all fun e => e.role != Role.spread) = true →
      ((l.foldl (emitSegStep W H sh sv nv nh manga suffix mi) st).emits.all
        fun e => e.role != Role.spread) = true := by
    intro l
    induction l with
    | nil => intro st h; exact h
    | cons p rest ih =>
      intro st h
      rw [List.foldl_cons]
      exact ih _ (emitSegStep_no_spread W H sh sv nv nh manga suffix mi p st h)
  exact hgen _ _ rfl

/-- The overlap-segment emission produces no spread-role file when the
overview files it carries have none. -/
theorem runSegEmission_no_spread (cfg : Config) (sp : SpecialSplits)
    (page W H : ℤ) (plan : SegPlan) (suffix : String) (ovs : List Emit)
    (table : MaskTable)
    (hovs : (ovs.all fun e => e.role != Role.spread) = true) :
    ((runSegEmission cfg sp page W H plan suffix ovs table).emits.all
      fun e => e.role != Role.spread) = true := by
  unfold runSegEmission
  split
  · rename_i pos heq
    split
    · exact hovs
    · simp [List.all_append, hovs, emitSegLoop_no_spread]
  · simp [List.all_append, hovs, emitSegLoop_no_spread]

/-- The splitting arm never produces a spread-role file. -/
theorem runSplitBranch_no_spread (cfg : Config) (sp : SpecialSplits)
    (page : ℤ) (suffix : String) (W1 H1 W2 H2 : ℤ) (table : MaskTable) :
    ((runSplitBranch cfg sp page suffix W1 H1 W2 H2 table).emits.all
      fun e => e.role != Role.spread) = true := by
  unfold runSplitBranch
  repeat' split
  all_goals first
    | rfl
    | (apply runSegEmission_no_spread; rfl)

/-- Inside a spread half (non-empty suffix), a page listed in
`SPLIT_SPREADS_PAGES` is always split (lines 266-272: "we cannot recurse
again, it has been halved, it must be split"). -/
theorem shouldSplitPage_of_listed (cfg : Config) (page : ℤ) (suffix : String)
    (W H : ℤ) (hs : suffix ≠ "") (hl : toString page ∈ cfg.splitSpreadsPages) :
    shouldSplitPage cfg page suffix W H = true := by
  unfold shouldSplitPage
  rw [if_neg (by simp [hs])]
  by_cases ha : cfg.splitAll = true
  · rw [if_pos ha]
  · rw [if_neg ha, if_pos hl]
    simp [hs]

end Cbz2Xtc
namespace Cbz2Xtc

/-- C6 amended: for a page explicitly listed in `--split-spreads`, spread
recursion depth is exactly one — a half page (non-empty suffix) is forced to
split and never emits a spread-role tile of its own, hence never spawns
sub-pipelines.  (Under `--split-spreads all` the guarantee fails: a half that
is still landscape is itself treated as a spread again, see the
counterexample.) -/
theorem C6_amended (cfg : Config) (sp : SpecialSplits) (inp : PageInput)
    (fuel : ℕ) (page : ℤ) (suffix : String) (table : MaskTable)
    (hs : suffix ≠ "") (hl : toString page ∈ cfg.splitSpreadsPages) :
    ((optimizeImage cfg sp inp fuel page suffix table).emits.all
      fun e => e.role != Role.spread) = true := by
  cases fuel with
  | zero => rfl
  | succ n =>
    unfold optimizeImage
    by_cases h1 : inp.decodable = false
    · rw [if_pos h1]; simp
    · rw [if_neg h1]
      by_cases h2 : cfg.skipOn = true ∧ toString page ∈ cfg.skipPages
      · rw [if_pos h2]; simp
      · rw [if_neg h2]
        by_cases h3 : cfg.startPage ≠ 0 ∧ page < cfg.startPage
        · rw [if_pos h3]; simp
        · rw [if_neg h3]
          by_cases h4 : cfg.stopPage ≠ 0 ∧ cfg.stopPage < page
          · rw [if_pos h4]; simp
          · rw [if_neg h4]
            by_cases h5 : cfg.onlyOn = true ∧ toString page ∉ cfg.onlyPages
            · rw [if_pos h5]; simp
            · rw [if_neg h5]
              by_cases h6 : cfg.sampleSet = true
              · rw [if_pos h6]; simp
              · rw [if_neg h6]
                cases hm : marginStep cfg.margin cfg.marginValue suffix with
                | error e => simp
                | ok action =>
                  simp only
                  cases hc : applyCrop inp action
                      (if suffix = "_1" ∨ suffix = "_2"
                        then inp.w - pyint ((50 : ℚ) / 100 * inp.w) else inp.w)
                      inp.h with
                  | error e => simp
                  | ok dims =>
                    obtain ⟨W2, H2⟩ := dims
                    simp only
                    rw [if_pos (shouldSplitPage_of_listed cfg page suffix W2 H2 hs hl)]
                    exact runSplitBranch_no_spread cfg sp page suffix _ _ W2 H2 table

end Cbz2Xtc
namespace Cbz2Xtc
/-- C6 counterexample: with `--split-spreads all --margin 0` on a 4000 × 1000
page, the right half (suffix `"_1"`, 2000 × 1000 after halving) is still
landscape, is not explicitly listed, and is therefore treated as a spread
again: it emits a spread-role tile of its own (and spawns a further pair of
half-page sub-pipelines), so recursion depth exceeds one. -/
theorem C6_counterexample :
    ((optimizeImage spreadAllCfg {} (pgIn 4000 1000) 3 1 "" []).emits.filter
        fun e => e.suffix == "_1" && e.role == Role.spread).length = 1 := by
  with_unfolding_all decide
/-- C6 witness: a listed page processed as a half emits no spread tile. -/
theorem C6_amended_witness :
    ((optimizeImage { splitSpreadsPages := ["7"] } {} (pgIn 100 50) 1 7 "_1" []).emits.all
      fun e => e.role != Role.spread) = true :=
  C6_amended { splitSpreadsPages := ["7"] } {} (pgIn 100 50) 1 7 "_1" []
    (by decide) (by decide)
end Cbz2Xtc

namespace Cbz2Xtc

/-- C2 (code bug): on a portrait 1000 × 1500 page under the default
configuration — overlap mode off, both segment counts 0, no per-page
special-split directive — the guard of line 301 evaluates its final operand
`page_num in SPECIAL_SPLITS_PAGES`, a global that is never assigned anywhere
in the script (the defined list is `SPECIAL_SPLIT_PAGES`), raising
`NameError`.  The page-level handler swallows it: the page emits zero tiles
and is reported failed, instead of the two half tiles the legacy two-piece
mode (lines 437-472, now dead code) was written to produce. -/
theorem C2_legacy_mode_dead :
    (optimizeImage {} {} (pgIn 1000 1500) 1 1 "" []).emits = []
    ∧ (optimizeImage {} {} (pgIn 1000 1500) 1 1 "" []).failed = true := by
  refine ⟨by with_unfolding_all decide, by with_unfolding_all decide⟩

/-- C10 counterexample: a batch whose single page carries the override
`--special-split 1-1-28` on a 1000 × 2700000 page runs the emission loop
with `Nv = 27` and the sentinel stride 99999; rows `a` through `z` save
normally, and at row index 26 the `letter_keys[v]` lookup raises
`IndexError`.  The page therefore both raises an internal error (reported,
`failed = true`) and contributes 26 output tiles — not zero. -/
theorem C10_counterexample :
    ((extractBatch overlapDefaults spReq28 1 [pgIn 1000 2700000] 1 [[]]).1.map
      fun r => (r.emits.length, r.failed)) = [(26, true)] := by
  with_unfolding_all decide

/-- C10 amended: no per-page failure is fatal to the batch — the batch loop
always produces exactly one result per input page, because `optimize_image`
catches every internal exception, reports it and returns; and a page whose
source buffer cannot be decoded fails before any emission, contributing zero
tiles.  A failure that strikes mid-emission, however, leaves the
already-saved tiles in place (see the counterexample). -/
theorem C10_amended (cfg : Config) (sp : SpecialSplits) (fuel : ℕ)
    (inputs : List PageInput) (page : ℤ) (table : MaskTable) :
    (extractBatch cfg sp fuel inputs page table).1.length = inputs.length
    ∧ ∀ inp : PageInput, inp.decodable = false →
      ∀ (p : ℤ) (suffix : String) (t : MaskTable),
        optimizeImage cfg sp inp (fuel + 1) p suffix t = ⟨[], t, true⟩ := by
  constructor
  · induction inputs generalizing page table with
    | nil => rfl
    | cons inp rest ih =>
      unfold extractBatch
      simp only [List.length_cons]
      rw [← ih (page + 1) (optimizeImage cfg sp inp fuel page "" table).table]
  · intro inp hdec p suffix t
    unfold optimizeImage
    rw [if_pos hdec]

/-- C10 witness: a one-page batch keeps its length, and a page with an
undecodable buffer yields zero tiles, an unchanged table and a reported
failure. -/
theorem C10_amended_witness :
    (extractBatch overlapDefaults {} 0 [{ decodable := false, w := 5, h := 5 }] 1 []).1.length = 1
    ∧ optimizeImage overlapDefaults {} { decodable := false, w := 5, h := 5 } 1 1 "" []
        = ⟨[], [], true⟩ :=
  ⟨(C10_amended overlapDefaults {} 0 [{ decodable := false, w := 5, h := 5 }] 1 []).1,
   (C10_amended overlapDefaults {} 0 [{ decodable := false, w := 5, h := 5 }] 1 []).2
     { decodable := false, w := 5, h := 5 } rfl 1 "" []⟩

end Cbz2Xtc
